import Mathlib

/-!
Shallow embedding of the clang tool RewriteRawPtrFields.cpp, which rewrites
raw pointer fields (Pointee* field) into CheckedPtr<Pointee> fields and emits
a line-oriented stream of edit records.

Source locations are modelled as byte offsets (Nat) into a file.  C++ strings
are modelled as Lean String.  The fatal assert calls in the source are
modelled by Option results: none is the assertion-failure outcome.

The clang front end itself (type printing via getAsString, the half-open
character range semantics of CharSourceRange/Replacement, and the aggregation
behaviour of ClangTool::run over translation units) is an external
collaborator of this repository; those parts are modelled from the spec, as
noted on each definition.
-/

/-- Top-level const/volatile qualifiers of a QualType. -/
structure Quals where
  isConst : Bool
  isVolatile : Bool
deriving DecidableEq, Repr

/-- No qualifiers. -/
def Quals.empty : Quals := ⟨false, false⟩

/-- The fragment of the clang type system that the tool inspects: void,
builtin types, tagged record types (the tag keyword string is kept, e.g.
class or struct), and pointer types carrying their own qualifiers. -/
inductive QualType where
  | void (q : Quals)
  | builtin (q : Quals) (name : String)
  | record (q : Quals) (tag : String) (name : String)
  | pointer (q : Quals) (pointee : QualType)
deriving DecidableEq, Repr

/-- Models clang Type::isPointerType restricted to our fragment. -/
def QualType.isPointerType : QualType → Bool
  | .pointer _ _ => true
  | _ => false

/-- Models clang Type::getPointeeType; only meaningful on pointer types
(the source always guards calls with an isPointerType assertion). -/
def QualType.getPointeeType : QualType → QualType
  | .pointer _ pointee => pointee
  | t => t

/-- The single printing-policy flag the tool sets (SuppressTagKeyword). -/
structure PrintingPolicy where
  suppressTagKeyword : Bool

/-- Rendering of the qualifier set in front of a type name. -/
def Quals.prefixText (q : Quals) : String :=
  (if q.isConst then ("const ") else ("")) ++
    (if q.isVolatile then ("volatile ") else (""))

/-- Modelled from the spec: clang QualType::getAsString for our fragment.
The spec describes the rendering policy: with SuppressTagKeyword set, a
record type named Foo renders as Foo rather than class Foo, and a pointee
that is itself a pointer renders with its remaining star, e.g. SomeClass*. -/
def QualType.getAsString : QualType → PrintingPolicy → String
  | .void q, _ => q.prefixText ++ ("void")
  | .builtin q n, _ => q.prefixText ++ n
  | .record q tag n, p =>
      q.prefixText ++ (if p.suppressTagKeyword then n else tag ++ (" ") ++ n)
  | .pointer q pointee, p =>
      pointee.getAsString p ++ ("*") ++
        (if q.isConst then ("const") else ("")) ++
        (if q.isVolatile then ("volatile") else (""))

/-- Models FieldDeclRewriter::GenerateNewText.  The assert on entry
(pointer_type must be a pointer type) is modelled by returning none when it
fails.  On a pointer type it takes the pointee type, renders it with
SuppressTagKeyword set, and concatenates CheckedPtr< text >. -/
def GenerateNewText (pointer_type : QualType) : Option String :=
  if pointer_type.isPointerType then
    let pointee_type := pointer_type.getPointeeType
    let printing_policy : PrintingPolicy := { suppressTagKeyword := true }
    some (("CheckedPtr<") ++ pointee_type.getAsString printing_policy ++ (">"))
  else
    none

/-- A matched field declaration, reduced to what the callback reads:
the file it lives in, the byte offset of getBeginLoc, the byte offset of
getLocation (the identifier of the field), and the declared type. -/
structure FieldDecl where
  filePath : String
  beginOffset : Nat
  nameOffset : Nat
  type : QualType
deriving DecidableEq, Repr

/-- Models clang::tooling::Replacement as the tool builds it: a file path, a
byte offset, a byte length and the replacement text.  Modelled from the
spec for the external part: a Replacement built from
CharSourceRange::getCharRange(b, e) has offset b and length e - b (the
half-open span). -/
structure Replacement where
  filePath : String
  offset : Nat
  length : Nat
  replacementText : String
deriving DecidableEq, Repr

/-- Models FieldDeclRewriter::run.  The assert that the matched type is a
pointer type is modelled by none.  The replacement range is the char range
from getBeginLoc to getLocation moved by -1, so offset is beginOffset and
length is (nameOffset - 1) - beginOffset. -/
def FieldDeclRewriter.run (fd : FieldDecl) : Option Replacement :=
  if fd.type.isPointerType then
    match GenerateNewText fd.type with
    | some text =>
        some { filePath := fd.filePath
               offset := fd.beginOffset
               length := (fd.nameOffset - 1) - fd.beginOffset
               replacementText := text }
    | none => none
  else
    none

/-- Models the AST matcher fieldDecl(hasType(pointerType())): a field
declaration is delivered to the callback exactly when its type is a pointer
type. -/
def field_decl_matcher (fd : FieldDecl) : Bool :=
  fd.type.isPointerType

/-- Modelled from the spec: one translation unit as ClangTool sees it —
whether it parses successfully, and the field declarations appearing in it
(the matcher then selects the pointer-typed ones). -/
structure TranslationUnit where
  parseSucceeds : Bool
  fieldDecls : List FieldDecl

/-- The edits one translation unit contributes: the matcher filters the
field declarations and the callback turns each match into a Replacement. -/
def TranslationUnit.edits (u : TranslationUnit) : List Replacement :=
  (u.fieldDecls.filter field_decl_matcher).filterMap FieldDeclRewriter.run

/-- Modelled from the spec: ClangTool::run returns a nonzero status exactly
when some translation unit fails to parse, and the match callbacks
accumulate the per-unit edits in order into the replacements vector. -/
def toolRun (units : List TranslationUnit) : Int × List Replacement :=
  ((if units.all (fun u => u.parseSucceeds) then 0 else 1),
   units.flatMap TranslationUnit.edits)

/-- Replaces every newline byte of the replacement text by a null byte, as
std::replace does in main. -/
def sanitizeText (s : String) : String :=
  String.mk (s.data.map (fun c => if c = '\n' then Char.ofNat 0 else c))

/-- Models the record line main prints for one Replacement: the r tag, the
file path, the decimal offset, the decimal length and the sanitized
replacement text, joined by the ::: delimiter, with no escaping. -/
def serializeEdit (r : Replacement) : String :=
  ("r:::") ++ r.filePath ++ (":::") ++ Nat.repr r.offset ++ (":::") ++
    Nat.repr r.length ++ (":::") ++ sanitizeText r.replacementText

/-- The opening marker line of the edit block. -/
def beginMarker : String := "==== BEGIN EDITS ===="

/-- The closing marker line of the edit block. -/
def endMarker : String := "==== END EDITS ===="

/-- Models main after option parsing: run the tool over the translation
units; on a nonzero tool status return it at once with no output; otherwise
print the edit block (one line per accumulated Replacement between the two
marker lines) and return 0.  The second component is the list of lines
written to stdout. -/
def mainRun (units : List TranslationUnit) : Int × List String :=
  let result := (toolRun units).1
  let replacements := (toolRun units).2
  if result ≠ 0 then
    (result, [])
  else
    (0, [beginMarker] ++ replacements.map serializeEdit ++ [endMarker])

/-!
Downstream parser of the record-line format.  The format itself is produced
by main above; the consumer is the external batch-apply script, which is not
part of src/, so the parser below is modelled from the spec: split the line
on the literal ::: delimiter into the r tag, the file path, the decimal
offset, the decimal length and the replacement text, then decode null bytes
back to newlines in the text.
-/

/-- True when the list contains the three-colon delimiter as a contiguous
run. -/
def hasTripleColon : List Char → Bool
  | [] => false
  | c :: rest =>
      (decide (c = ':' ∧ rest.take 2 = [':', ':'])) || hasTripleColon rest

/-- Splits at the first occurrence of the ::: delimiter: returns the part
before it and the part after it, or none when the delimiter is absent. -/
def splitFirst : List Char → Option (List Char × List Char)
  | [] => none
  | c :: rest =>
      if c = ':' ∧ rest.take 2 = [':', ':'] then
        some ([], rest.drop 2)
      else
        match splitFirst rest with
        | some (f, r) => some (c :: f, r)
        | none => none

/-- Modelled from the spec: decimal digit value of one character. -/
def charDigit? (c : Char) : Option Nat :=
  if 48 ≤ c.toNat ∧ c.toNat ≤ 57 then some (c.toNat - 48) else none

/-- Left-to-right accumulation of a decimal numeral. -/
def parseNatAux : List Char → Nat → Option Nat
  | [], acc => some acc
  | c :: rest, acc =>
      match charDigit? c with
      | some d => parseNatAux rest (acc * 10 + d)
      | none => none

/-- Modelled from the spec: parse a nonempty all-digit field as a decimal
number. -/
def parseNat (l : List Char) : Option Nat :=
  if l = [] then none else parseNatAux l 0

/-- Decodes the null bytes of a serialized replacement text back to
newlines. -/
def desanitizeText (l : List Char) : String :=
  String.mk (l.map (fun c => if c = Char.ofNat 0 then '\n' else c))

/-- Modelled from the spec: the downstream parse of one record line of the
documented format.  The line must split on ::: into the fixed r tag, a file
path, a decimal offset, a decimal length and a trailing text field that
contains no further delimiter. -/
def parseEditLine (line : String) : Option Replacement :=
  match splitFirst line.data with
  | none => none
  | some (f0, rest0) =>
    if f0 = ['r'] then
      match splitFirst rest0 with
      | none => none
      | some (f1, rest1) =>
        match splitFirst rest1 with
        | none => none
        | some (f2, rest2) =>
          match splitFirst rest2 with
          | none => none
          | some (f3, f4) =>
            if hasTripleColon f4 then none
            else
              match parseNat f2, parseNat f3 with
              | some off, some len =>
                  some { filePath := String.mk f1
                         offset := off
                         length := len
                         replacementText := desanitizeText f4 }
              | _, _ => none
    else none

/-!
Concrete types and fields used by the test expectations of the tool
(tests/gen/rewrite_raw_ptr_fields/general-original.cc): the double pointer
field and the void pointer field of MyStruct.
-/

/-- The forward-declared class SomeClass of the test file. -/
def someClassType : QualType := QualType.record Quals.empty ("class") ("SomeClass")

/-- The type of the field SomeClass** double_ptr. -/
def doublePtrType : QualType :=
  QualType.pointer Quals.empty (QualType.pointer Quals.empty someClassType)

/-- The type of the field void* void_ptr. -/
def voidPtrType : QualType :=
  QualType.pointer Quals.empty (QualType.void Quals.empty)

/-- The type of the field const Pointee* const field_name of the comment in
FieldDeclRewriter::run: a const pointer to a const record Pointee. -/
def constPointerType : QualType :=
  QualType.pointer ⟨true, false⟩
    (QualType.record ⟨true, false⟩ ("class") ("Pointee"))

/-!
Helper lemmas shared by the claim theorems below.
-/


theorem hasTripleColon_cons (c : Char) (l : List Char)
    (h : hasTripleColon (c :: l) = false) :
    ¬(c = ':' ∧ l.take 2 = [':', ':']) ∧ hasTripleColon l = false := by
  simp only [hasTripleColon, Bool.or_eq_false_iff, decide_eq_false_iff_not] at h
  exact h

theorem splitFirst_append (b : List Char) :
    ∀ (a : List Char), hasTripleColon a = false → a.getLast? ≠ some ':' →
      splitFirst (a ++ ':' :: ':' :: ':' :: b) = some (a, b) := by
  intro a
  induction a with
  | nil =>
    intro _ _
    show splitFirst (':' :: ':' :: ':' :: b) = some ([], b)
    rw [splitFirst, if_pos ⟨rfl, rfl⟩]
    rfl
  | cons c a ih =>
    intro hfree hlast
    rcases a with _ | ⟨d, _ | ⟨e, a2⟩⟩
    · have hc : c ≠ ':' := by
        intro h
        exact hlast (by simp [h])
      show splitFirst (c :: ':' :: ':' :: ':' :: b) = some ([c], b)
      rw [splitFirst, if_neg (by exact fun h => hc h.1), splitFirst,
        if_pos ⟨rfl, rfl⟩]
      rfl
    · have hd : d ≠ ':' := by
        intro h
        exact hlast (by simp [h])
      have hrec : splitFirst ([d] ++ ':' :: ':' :: ':' :: b) = some ([d], b) :=
        ih (by simp [hasTripleColon]) (by simp [hd])
      simp only [List.cons_append, List.nil_append] at hrec ⊢
      rw [splitFirst, if_neg (by exact fun h => hd (List.cons.injEq .. |>.mp h.2).1),
        hrec]
    · have hguard := (hasTripleColon_cons c _ hfree).1
      have htail := (hasTripleColon_cons c _ hfree).2
      have hlast2 : (d :: e :: a2).getLast? ≠ some ':' := by
        simpa using hlast
      have hrec := ih htail hlast2
      simp only [List.cons_append] at hrec ⊢
      rw [splitFirst, if_neg (by
        intro h
        exact hguard ⟨h.1, by
          have h2 := h.2
          simp only [List.take] at h2 ⊢
          exact h2⟩), hrec]

theorem charDigit?_digitChar (m : Nat) (h : m < 10) :
    charDigit? (Nat.digitChar m) = some m := by
  interval_cases m <;> decide

theorem digitChar_toNat (m : Nat) (h : m < 10) :
    48 ≤ (Nat.digitChar m).toNat ∧ (Nat.digitChar m).toNat ≤ 57 := by
  interval_cases m <;> decide

theorem toDigitsCore_append :
    ∀ (fuel n : Nat) (ds : List Char),
      Nat.toDigitsCore 10 fuel n ds = Nat.toDigitsCore 10 fuel n [] ++ ds := by
  intro fuel
  induction fuel with
  | zero => intro n ds; rfl
  | succ f ih =>
    intro n ds
    simp only [Nat.toDigitsCore]
    by_cases h : n / 10 = 0
    · simp [h]
    · simp only [h, if_false]
      rw [ih (n / 10) (Nat.digitChar (n % 10) :: ds),
        ih (n / 10) [Nat.digitChar (n % 10)], List.append_assoc]
      rfl

theorem toDigitsCore_ne_nil_of_ds :
    ∀ (fuel n : Nat) (ds : List Char), ds ≠ [] →
      Nat.toDigitsCore 10 fuel n ds ≠ [] := by
  intro fuel
  induction fuel with
  | zero => intro n ds h; exact h
  | succ f ih =>
    intro n ds h
    simp only [Nat.toDigitsCore]
    by_cases hdiv : n / 10 = 0
    · simp [hdiv]
    · simp only [hdiv, if_false]
      exact ih (n / 10) _ (by simp)

theorem toDigits_ne_nil (n : Nat) : Nat.toDigits 10 n ≠ [] := by
  show Nat.toDigitsCore 10 (n + 1) n [] ≠ []
  simp only [Nat.toDigitsCore]
  by_cases hdiv : n / 10 = 0
  · simp [hdiv]
  · simp only [hdiv, if_false]
    exact toDigitsCore_ne_nil_of_ds n (n / 10) _ (by simp)

theorem parseNatAux_toDigitsCore :
    ∀ (fuel n : Nat), n < fuel → ∀ (ds : List Char) (acc : Nat),
      parseNatAux (Nat.toDigitsCore 10 fuel n ds) acc =
        parseNatAux ds (acc * 10 ^ (Nat.toDigitsCore 10 fuel n []).length + n) := by
  intro fuel
  induction fuel with
  | zero => intro n h; omega
  | succ f ih =>
    intro n h ds acc
    simp only [Nat.toDigitsCore]
    by_cases hdiv : n / 10 = 0
    · have hn : n < 10 := by omega
      simp only [hdiv, if_true]
      rw [parseNatAux]
      rw [charDigit?_digitChar (n % 10) (by omega)]
      simp only [if_pos hdiv, List.length_cons, List.length_nil]
      have : n % 10 = n := Nat.mod_eq_of_lt hn
      rw [this, pow_one]
    · have hd : n / 10 < f := by omega
      simp only [hdiv, if_false]
      rw [ih (n / 10) hd (Nat.digitChar (n % 10) :: ds) acc]
      rw [parseNatAux]
      rw [charDigit?_digitChar (n % 10) (by omega)]
      rw [toDigitsCore_append f (n / 10) [Nat.digitChar (n % 10)]]
      simp only [List.length_append, List.length_cons, List.length_nil]
      congr 1
      generalize (Nat.toDigitsCore 10 f (n / 10) []).length = L
      have hmod : n / 10 * 10 + n % 10 = n := by omega
      nth_rewrite 3 [← hmod]
      rw [pow_succ]
      ring

theorem parseNat_toDigits (n : Nat) : parseNat (Nat.toDigits 10 n) = some n := by
  rw [parseNat, if_neg (toDigits_ne_nil n)]
  have h := parseNatAux_toDigitsCore (n + 1) n (Nat.lt_succ_self n) [] 0
  rw [show Nat.toDigits 10 n = Nat.toDigitsCore 10 (n + 1) n [] from rfl, h]
  simp [parseNatAux]

theorem toDigitsCore_all_digits :
    ∀ (fuel n : Nat) (ds : List Char),
      (∀ c ∈ ds, 48 ≤ c.toNat ∧ c.toNat ≤ 57) →
      ∀ c ∈ Nat.toDigitsCore 10 fuel n ds, 48 ≤ c.toNat ∧ c.toNat ≤ 57 := by
  intro fuel
  induction fuel with
  | zero => intro n ds h; exact h
  | succ f ih =>
    intro n ds h
    simp only [Nat.toDigitsCore]
    by_cases hdiv : n / 10 = 0
    · simp only [hdiv, if_true]
      intro c hc
      rcases List.mem_cons.mp hc with hc | hc
      · subst hc; exact digitChar_toNat (n % 10) (by omega)
      · exact h c hc
    · simp only [hdiv, if_false]
      refine ih (n / 10) _ ?_
      intro c hc
      rcases List.mem_cons.mp hc with hc | hc
      · subst hc; exact digitChar_toNat (n % 10) (by omega)
      · exact h c hc

theorem toDigits_all_digits (n : Nat) :
    ∀ c ∈ Nat.toDigits 10 n, 48 ≤ c.toNat ∧ c.toNat ≤ 57 :=
  toDigitsCore_all_digits (n + 1) n [] (by intro c hc; cases hc)

theorem ne_colon_of_digit (c : Char) (h : 48 ≤ c.toNat ∧ c.toNat ≤ 57) :
    c ≠ ':' := by
  intro hc
  subst hc
  revert h
  decide

theorem hasTripleColon_eq_false_of_no_colon :
    ∀ (l : List Char), (∀ c ∈ l, c ≠ ':') → hasTripleColon l = false := by
  intro l
  induction l with
  | nil => intro _; rfl
  | cons c rest ih =>
    intro h
    simp only [hasTripleColon, Bool.or_eq_false_iff, decide_eq_false_iff_not]
    constructor
    · intro hcontra
      exact h c (List.mem_cons_self c rest) hcontra.1
    · exact ih (fun d hd => h d (List.mem_cons_of_mem c hd))

theorem getLast?_ne_colon_of_no_colon (l : List Char)
    (h : ∀ c ∈ l, c ≠ ':') : l.getLast? ≠ some ':' := by
  intro hcontra
  have hmem : ':' ∈ l := by
    rcases List.mem_getLast?_eq_getLast (x := ':') (l := l) (by simp [hcontra]) with ⟨hne, heq⟩
    rw [heq]
    exact List.getLast_mem hne
  exact h ':' hmem rfl

theorem repr_data (n : Nat) : (Nat.repr n).data = Nat.toDigits 10 n := rfl

theorem repr_no_triple (n : Nat) : hasTripleColon (Nat.repr n).data = false := by
  rw [repr_data]
  exact hasTripleColon_eq_false_of_no_colon _
    (fun c hc => ne_colon_of_digit c (toDigits_all_digits n c hc))

theorem repr_getLast (n : Nat) : (Nat.repr n).data.getLast? ≠ some ':' := by
  rw [repr_data]
  exact getLast?_ne_colon_of_no_colon _
    (fun c hc => ne_colon_of_digit c (toDigits_all_digits n c hc))

theorem repr_parseNat (n : Nat) : parseNat (Nat.repr n).data = some n := by
  rw [repr_data]
  exact parseNat_toDigits n

theorem hasTripleColon_map (f : Char → Char) (hf : ∀ c, f c = ':' ↔ c = ':') :
    ∀ (l : List Char), hasTripleColon (l.map f) = hasTripleColon l := by
  intro l
  induction l with
  | nil => rfl
  | cons c rest ih =>
    rcases rest with _ | ⟨d, _ | ⟨e, r2⟩⟩
    · simp [hasTripleColon, hf]
    · simp [hasTripleColon, hf]
    · simp only [List.map_cons, hasTripleColon, List.take, ih]
      congr 1
      simp only [decide_eq_decide, hf]
      constructor
      · rintro ⟨h1, h2⟩
        simp only [List.cons.injEq, and_true] at h2
        exact ⟨h1, by simp [(hf d).mp h2.1, (hf e).mp h2.2]⟩
      · rintro ⟨h1, h2⟩
        simp only [List.cons.injEq, and_true] at h2
        exact ⟨h1, by simp [(hf d).mpr h2.1, (hf e).mpr h2.2]⟩

theorem sanitize_iff_colon (c : Char) :
    (if c = '\n' then Char.ofNat 0 else c) = ':' ↔ c = ':' := by
  by_cases hc : c = '\n'
  · subst hc
    simp only [if_pos rfl]
    constructor
    · intro h; exact absurd h (by decide)
    · intro h; exact absurd h (by decide)
  · rw [if_neg hc]

theorem sanitizeText_data (s : String) :
    (sanitizeText s).data = s.data.map (fun c => if c = '\n' then Char.ofNat 0 else c) := rfl

theorem sanitize_no_triple (s : String) (h : hasTripleColon s.data = false) :
    hasTripleColon (sanitizeText s).data = false := by
  rw [sanitizeText_data, hasTripleColon_map _ sanitize_iff_colon]
  exact h

theorem map_desan_san (l : List Char) (h : Char.ofNat 0 ∉ l) :
    l.map ((fun c => if c = Char.ofNat 0 then '\n' else c) ∘
      (fun c => if c = '\n' then Char.ofNat 0 else c)) = l := by
  induction l with
  | nil => rfl
  | cons c rest ih =>
    have h1 : c ≠ Char.ofNat 0 := by
      intro hc
      exact h (hc ▸ List.mem_cons_self c rest)
    have h2 := ih (fun hm => h (List.mem_cons_of_mem c hm))
    simp only [List.map_cons, h2, Function.comp_apply]
    by_cases hc : c = '\n'
    · subst hc
      simp
    · rw [if_neg hc, if_neg h1]

theorem desanitize_sanitize (s : String) (h : Char.ofNat 0 ∉ s.data) :
    desanitizeText (sanitizeText s).data = s := by
  obtain ⟨l⟩ := s
  show String.mk ((l.map _).map _) = String.mk l
  rw [List.map_map]
  exact congrArg String.mk (map_desan_san l h)


/-- Claim C6, amended: for every EditRecord whose file path and replacement
text are free of the ::: delimiter sequence, whose file path moreover does
not end with a colon character, and whose text contains no pre-existing null
bytes, serializing it via the documented line format and parsing the line
back reconstructs the original record exactly, null bytes decoded back to
newlines. -/
theorem c6_roundtrip_amended (r : Replacement)
    (hp1 : hasTripleColon r.filePath.data = false)
    (hp2 : r.filePath.data.getLast? ≠ some ':')
    (ht1 : hasTripleColon r.replacementText.data = false)
    (ht2 : Char.ofNat 0 ∉ r.replacementText.data) :
    parseEditLine (serializeEdit r) = some r := by
  obtain ⟨path, off, len, text⟩ := r
  simp only at hp1 hp2 ht1 ht2
  have hdata1 : ("r:::").data = 'r' :: ':' :: ':' :: ':' :: [] := rfl
  have hdata2 : ((":::") : String).data = ':' :: ':' :: ':' :: [] := rfl
  have hline : (serializeEdit ⟨path, off, len, text⟩).data =
      ['r'] ++ ':' :: ':' :: ':' ::
        (path.data ++ ':' :: ':' :: ':' ::
          ((Nat.repr off).data ++ ':' :: ':' :: ':' ::
            ((Nat.repr len).data ++ ':' :: ':' :: ':' ::
              (sanitizeText text).data))) := by
    simp [serializeEdit, String.data_append, hdata1, hdata2]
  have s1 : splitFirst (['r'] ++ ':' :: ':' :: ':' ::
      (path.data ++ ':' :: ':' :: ':' ::
        ((Nat.repr off).data ++ ':' :: ':' :: ':' ::
          ((Nat.repr len).data ++ ':' :: ':' :: ':' ::
            (sanitizeText text).data)))) =
      some (['r'],
        path.data ++ ':' :: ':' :: ':' ::
          ((Nat.repr off).data ++ ':' :: ':' :: ':' ::
            ((Nat.repr len).data ++ ':' :: ':' :: ':' ::
              (sanitizeText text).data))) :=
    splitFirst_append _ ['r'] (by decide) (by decide)
  have s2 : splitFirst (path.data ++ ':' :: ':' :: ':' ::
      ((Nat.repr off).data ++ ':' :: ':' :: ':' ::
        ((Nat.repr len).data ++ ':' :: ':' :: ':' ::
          (sanitizeText text).data))) =
      some (path.data,
        (Nat.repr off).data ++ ':' :: ':' :: ':' ::
          ((Nat.repr len).data ++ ':' :: ':' :: ':' ::
            (sanitizeText text).data)) :=
    splitFirst_append _ path.data hp1 hp2
  have s3 : splitFirst ((Nat.repr off).data ++ ':' :: ':' :: ':' ::
      ((Nat.repr len).data ++ ':' :: ':' :: ':' ::
        (sanitizeText text).data)) =
      some ((Nat.repr off).data,
        (Nat.repr len).data ++ ':' :: ':' :: ':' ::
          (sanitizeText text).data) :=
    splitFirst_append _ _ (repr_no_triple off) (repr_getLast off)
  have s4 : splitFirst ((Nat.repr len).data ++ ':' :: ':' :: ':' ::
      (sanitizeText text).data) =
      some ((Nat.repr len).data, (sanitizeText text).data) :=
    splitFirst_append _ _ (repr_no_triple len) (repr_getLast len)
  simp only [parseEditLine, hline, s1, s2, s3, s4,
    sanitize_no_triple text ht1, repr_parseNat, desanitize_sanitize text ht2,
    Bool.false_eq_true, if_false, reduceIte]


/-- Claim C1: for every matched field declaration with a pointer type, the
computed replacement span is the half-open byte range from the start of the
declaration to one byte before the location of the identifier of the field:
the emitted Replacement has offset equal to the begin offset of the
declaration and exclusive end (offset plus length) equal to the name offset
minus one, so it covers the written type and leaves the identifier alone. -/
theorem c1_replacement_span (fd : FieldDecl)
    (hptr : fd.type.isPointerType = true)
    (hord : fd.beginOffset < fd.nameOffset) :
    ∃ rep : Replacement, FieldDeclRewriter.run fd = some rep ∧
      rep.filePath = fd.filePath ∧
      rep.offset = fd.beginOffset ∧
      rep.offset + rep.length = fd.nameOffset - 1 := by
  have hg : GenerateNewText fd.type =
      some (("CheckedPtr<") ++
        fd.type.getPointeeType.getAsString { suppressTagKeyword := true } ++
        (">")) := by
    rw [GenerateNewText, if_pos hptr]
  rw [FieldDeclRewriter.run, if_pos hptr, hg]
  refine ⟨_, rfl, rfl, rfl, ?_⟩
  simp only
  omega

/-- Claim C1 witness: the span computation at a concrete field modelled on
the comment in the source, const Pointee* const field_name_ with the
declaration starting at byte 0 and the identifier at byte 21. -/
theorem c1_replacement_span_witness :
    ∃ rep : Replacement,
      FieldDeclRewriter.run ⟨("f.cc"), 0, 21, constPointerType⟩ = some rep ∧
      rep.filePath = (⟨("f.cc"), 0, 21, constPointerType⟩ : FieldDecl).filePath ∧
      rep.offset = 0 ∧
      rep.offset + rep.length = 20 :=
  c1_replacement_span ⟨("f.cc"), 0, 21, constPointerType⟩ (by decide) (by decide)

/-- Claim C2: for a field declared SomeClass** double_ptr, one run of the
tool produces the replacement text CheckedPtr<SomeClass*>, keeping the
remaining star inside the pointee text, and not the fully nested
CheckedPtr<CheckedPtr<SomeClass>>: only one level of indirection is
unwrapped. -/
theorem c2_double_pointer_one_level :
    GenerateNewText doublePtrType = some ("CheckedPtr<SomeClass*>") ∧
    GenerateNewText doublePtrType ≠ some ("CheckedPtr<CheckedPtr<SomeClass>>") ∧
    FieldDeclRewriter.run ⟨("t.cc"), 100, 123, doublePtrType⟩ =
      some ⟨("t.cc"), 100, 22, ("CheckedPtr<SomeClass*>")⟩ := by
  refine ⟨rfl, by decide, rfl⟩

/-- Claim C3: for every field of pointer type whose pointee is an
unqualified class or struct named SomeClass, whatever the written tag
keyword and whatever the qualifiers on the pointer itself, the generated
replacement text is exactly CheckedPtr<SomeClass>, the tag keyword being
suppressed by the printing policy. -/
theorem c3_tag_keyword_suppressed (tag : String) (q : Quals) :
    GenerateNewText
        (QualType.pointer q (QualType.record Quals.empty tag ("SomeClass"))) =
      some ("CheckedPtr<SomeClass>") := by
  rfl

/-- Claim C4: if any supplied translation unit fails to parse, the process
exit status is nonzero and no line of the edit block (markers included) is
emitted; if all units succeed, the output is exactly the begin marker, one
record line for each edit of the union of the per-unit edit lists, in
order and once each, and the end marker, with exit status zero. -/
theorem c4_all_or_nothing (units : List TranslationUnit) :
    (units.all (fun u => u.parseSucceeds) = false →
      (mainRun units).1 ≠ 0 ∧ (mainRun units).2 = []) ∧
    (units.all (fun u => u.parseSucceeds) = true →
      mainRun units =
        (0, [beginMarker] ++
          (units.flatMap TranslationUnit.edits).map serializeEdit ++
          [endMarker])) := by
  constructor
  · intro h
    simp [mainRun, toolRun, h]
  · intro h
    simp [mainRun, toolRun, h]

/-- Claim C4 witness: a single failing unit yields a nonzero status and no
output, and a single succeeding empty unit yields the bracketed block. -/
theorem c4_all_or_nothing_witness :
    ((mainRun [(⟨false, []⟩ : TranslationUnit)]).1 ≠ 0 ∧
      (mainRun [(⟨false, []⟩ : TranslationUnit)]).2 = []) ∧
    mainRun [(⟨true, []⟩ : TranslationUnit)] =
      (0, [beginMarker] ++
        (([(⟨true, []⟩ : TranslationUnit)]).flatMap
          TranslationUnit.edits).map serializeEdit ++
        [endMarker]) :=
  ⟨(c4_all_or_nothing [(⟨false, []⟩ : TranslationUnit)]).1 (by rfl),
   (c4_all_or_nothing [(⟨true, []⟩ : TranslationUnit)]).2 (by rfl)⟩

/-- Claim C5: on a fully successful run every EditRecord is serialized as
exactly one line of the form r:::file:::offset:::length:::text between the
two marker lines, where every newline byte of the replacement text is
first replaced by a null byte and the ::: delimiter is never escaped: the
file path and sanitized text are embedded verbatim, and the resulting
record contains no newline byte in its text portion. -/
theorem c5_record_line_format (units : List TranslationUnit) (r : Replacement)
    (hsucc : units.all (fun u => u.parseSucceeds) = true) :
    (mainRun units).2 =
      [beginMarker] ++ ((toolRun units).2.map serializeEdit) ++ [endMarker] ∧
    serializeEdit r =
      ("r:::") ++ r.filePath ++ (":::") ++ Nat.repr r.offset ++ (":::") ++
        Nat.repr r.length ++ (":::") ++
        String.mk (r.replacementText.data.map
          (fun c => if c = '\n' then Char.ofNat 0 else c)) ∧
    ∀ c ∈ (sanitizeText r.replacementText).data, c ≠ '\n' := by
  refine ⟨?_, rfl, ?_⟩
  · simp [mainRun, toolRun, hsucc]
  · intro c hc
    rcases List.mem_map.mp hc with ⟨d, _, rfl⟩
    by_cases hd : d = '\n'
    · simp only [hd, if_pos rfl]
      decide
    · rw [if_neg hd]
      exact hd

/-- Claim C5 witness: the record-line format at one successful empty unit
and one concrete EditRecord whose text contains a newline. -/
theorem c5_record_line_format_witness :
    (mainRun [(⟨true, []⟩ : TranslationUnit)]).2 =
      [beginMarker] ++
        ((toolRun [(⟨true, []⟩ : TranslationUnit)]).2.map serializeEdit) ++
        [endMarker] ∧
    serializeEdit ⟨("a.cc"), 7, 3, ("x\ny")⟩ =
      ("r:::") ++ ("a.cc") ++ (":::") ++ Nat.repr 7 ++ (":::") ++
        Nat.repr 3 ++ (":::") ++
        String.mk ((("x\ny") : String).data.map
          (fun c => if c = '\n' then Char.ofNat 0 else c)) ∧
    ∀ c ∈ (sanitizeText ("x\ny")).data, c ≠ '\n' :=
  c5_record_line_format [(⟨true, []⟩ : TranslationUnit)]
    ⟨("a.cc"), 7, 3, ("x\ny")⟩ (by rfl)

/-- Claim C6, counterexample: the claim as stated is false.  The record with
file path a:, offset 1, length 2 and text T satisfies the stated
precondition (path and text free of the ::: delimiter, text free of null
bytes), yet parsing its serialized line does not reconstruct it: the colon
ending the path merges with the delimiter, so the split consumes one byte
of the path and the offset field becomes :1, which is not a number. -/
theorem c6_roundtrip_counterexample :
    (hasTripleColon (("a:") : String).data = false ∧
      hasTripleColon (("T") : String).data = false ∧
      Char.ofNat 0 ∉ (("T") : String).data) ∧
    parseEditLine (serializeEdit ⟨("a:"), 1, 2, ("T")⟩) ≠
      some ⟨("a:"), 1, 2, ("T")⟩ := by
  decide

/-- Claim C6 witness: the amended round trip at a concrete record whose
replacement text contains a newline. -/
theorem c6_roundtrip_amended_witness :
    (hasTripleColon (("foo.cc") : String).data = false ∧
      (("foo.cc") : String).data.getLast? ≠ some ':' ∧
      hasTripleColon (("CheckedPtr<X>\nY") : String).data = false ∧
      Char.ofNat 0 ∉ (("CheckedPtr<X>\nY") : String).data) ∧
    parseEditLine (serializeEdit ⟨("foo.cc"), 12, 34, ("CheckedPtr<X>\nY")⟩) =
      some ⟨("foo.cc"), 12, 34, ("CheckedPtr<X>\nY")⟩ :=
  ⟨⟨by decide, by decide, by decide, by decide⟩,
    c6_roundtrip_amended ⟨("foo.cc"), 12, 34, ("CheckedPtr<X>\nY")⟩
      (by decide) (by decide) (by decide) (by decide)⟩

/-- Claim C7: for every matched pointer-typed field, the qualifiers on the
pointer itself are dropped from the generated replacement text: the
replacement is CheckedPtr< plus the rendered pointee plus >, and the result
does not depend on the const or volatile qualifiers of the pointer. -/
theorem c7_pointer_qualifiers_dropped (q q2 : Quals) (pointee : QualType) :
    GenerateNewText (QualType.pointer q pointee) =
      some (("CheckedPtr<") ++
        pointee.getAsString { suppressTagKeyword := true } ++ (">")) ∧
    GenerateNewText (QualType.pointer q pointee) =
      GenerateNewText (QualType.pointer q2 pointee) :=
  ⟨rfl, rfl⟩

/-- Claim C8: a field declared void* void_ptr is rewritten with the
replacement text CheckedPtr<void>. -/
theorem c8_void_pointer :
    GenerateNewText voidPtrType = some ("CheckedPtr<void>") ∧
    FieldDeclRewriter.run ⟨("t.cc"), 200, 217, voidPtrType⟩ =
      some ⟨("t.cc"), 200, 16, ("CheckedPtr<void>")⟩ :=
  ⟨rfl, rfl⟩

/-- Claim C9: invoking the rewriter on a declaration whose type is not a
pointer type hits the fatal assertions (modelled as the none outcome) both
in the match callback and in text generation; conversely, whenever the
field matcher delivers a match, the matched type is a pointer type and both
assertion branches are unreachable: the callback and the text generation
succeed. -/
theorem c9_assertion_contract (fd : FieldDecl) :
    (fd.type.isPointerType = false →
      FieldDeclRewriter.run fd = none ∧ GenerateNewText fd.type = none) ∧
    (field_decl_matcher fd = true →
      (∃ rep, FieldDeclRewriter.run fd = some rep) ∧
      (∃ s, GenerateNewText fd.type = some s)) := by
  constructor
  · intro h
    constructor
    · rw [FieldDeclRewriter.run, if_neg (by simp [h])]
    · rw [GenerateNewText, if_neg (by simp [h])]
  · intro h
    have hptr : fd.type.isPointerType = true := h
    have hg : GenerateNewText fd.type =
        some (("CheckedPtr<") ++
          fd.type.getPointeeType.getAsString { suppressTagKeyword := true } ++
          (">")) := by
      rw [GenerateNewText, if_pos hptr]
    have hrun : FieldDeclRewriter.run fd =
        some { filePath := fd.filePath
               offset := fd.beginOffset
               length := (fd.nameOffset - 1) - fd.beginOffset
               replacementText :=
                 ("CheckedPtr<") ++
                   fd.type.getPointeeType.getAsString
                     { suppressTagKeyword := true } ++ (">") } := by
      rw [FieldDeclRewriter.run, if_pos hptr, hg]
    exact ⟨⟨_, hrun⟩, ⟨_, hg⟩⟩

/-- Claim C9 witness: the assertion fires on a concrete non-pointer field
and both stages succeed on a concrete pointer field. -/
theorem c9_assertion_contract_witness :
    (FieldDeclRewriter.run ⟨("t.cc"), 0, 6, someClassType⟩ = none ∧
      GenerateNewText (⟨("t.cc"), 0, 6, someClassType⟩ : FieldDecl).type = none) ∧
    ((∃ rep, FieldDeclRewriter.run ⟨("t.cc"), 0, 6, voidPtrType⟩ = some rep) ∧
      (∃ s, GenerateNewText (⟨("t.cc"), 0, 6, voidPtrType⟩ : FieldDecl).type = some s)) :=
  ⟨(c9_assertion_contract ⟨("t.cc"), 0, 6, someClassType⟩).1 (by decide),
    (c9_assertion_contract ⟨("t.cc"), 0, 6, voidPtrType⟩).2 (by decide)⟩

/-- Claim C10: when every translation unit succeeds and no field
declaration matches, the tool still emits the two marker lines with no
record line between them and exits with status zero: an empty match set is
not a failure. -/
theorem c10_empty_match_set (units : List TranslationUnit)
    (hsucc : units.all (fun u => u.parseSucceeds) = true)
    (hempty : ∀ u ∈ units, u.fieldDecls.filter field_decl_matcher = []) :
    mainRun units = (0, [beginMarker, endMarker]) := by
  have hedits : units.flatMap TranslationUnit.edits = [] := by
    rw [List.flatMap_eq_nil_iff]
    intro u hu
    simp [TranslationUnit.edits, hempty u hu]
  simp [mainRun, toolRun, hsucc, hedits]

/-- Claim C10 witness: one successful translation unit whose only field
declaration has a non-pointer type, so it parses fine but nothing matches,
produces the bare marker block and status zero. -/
theorem c10_empty_match_set_witness :
    mainRun [(⟨true, [⟨("t.cc"), 0, 6, someClassType⟩]⟩ : TranslationUnit)] =
      (0, [beginMarker, endMarker]) :=
  c10_empty_match_set
    [(⟨true, [⟨("t.cc"), 0, 6, someClassType⟩]⟩ : TranslationUnit)] (by rfl)
    (by
      intro u hu
      rw [List.mem_singleton] at hu
      subst hu
      rfl)
